import Mathlib

/-!
Shallow embedding of the urban-dictionary lookup flow of
`src/monty/cogs/monty_cog.py`: the bracket cross-reference scanner
(`linked_terms_pattern.findall`), the definition fetcher
(`fetch_urban_dictionary_definition`), and the renderer plus button wiring
inside `send_urban_dictionary_definition` / `UbanDictionaryButton`.
Text is modelled as Lean `String` (lists of characters); lower-casing is the
ASCII case folding exercised by the flow.
-/

namespace Monty

/-- ASCII lower-casing of a string, modelling Python's `str.lower()` on the
ASCII inputs this flow handles. -/
def lowerString (s : String) : String :=
  String.mk (s.toList.map Char.toLower)

/-- Left-to-right non-overlapping replacement of the four-character literal
sequence backslash-r-backslash-n by a newline character, modelling
`text.replace(r'\r\n', '\n')` (note: the Python pattern is the RAW string,
i.e. backslash, r, backslash, n — not an actual CRLF). -/
def normalizeCrlf : List Char → List Char
  | '\\' :: 'r' :: '\\' :: 'n' :: rest => '\n' :: normalizeCrlf rest
  | c :: rest => c :: normalizeCrlf rest
  | [] => []

/-- Replacement of every occurrence of a single character by a replacement
string, modelling Python's `str.replace` with a one-character pattern. -/
def replaceChar (target : Char) (repl : List Char) : List Char → List Char
  | [] => []
  | c :: rest => (if c = target then repl else [c]) ++ replaceChar target repl rest

/-- Worker for `splitlines`: accumulates the current line (reversed) and
splits at a newline, a carriage return, or a CRLF pair, with no trailing
empty line, following Python's `str.splitlines` on these boundaries. -/
def splitlinesGo : List Char → List Char → List (List Char)
  | acc, [] => [acc.reverse]
  | acc, '\r' :: '\n' :: rest =>
    acc.reverse :: (if rest.isEmpty then [] else splitlinesGo [] rest)
  | acc, '\r' :: rest =>
    acc.reverse :: (if rest.isEmpty then [] else splitlinesGo [] rest)
  | acc, '\n' :: rest =>
    acc.reverse :: (if rest.isEmpty then [] else splitlinesGo [] rest)
  | acc, c :: rest => splitlinesGo (c :: acc) rest

/-- Python's `str.splitlines`: the empty string yields no lines, and a
trailing boundary does not produce a trailing empty line. -/
def splitlines (s : String) : List String :=
  if s.toList.isEmpty then []
  else (splitlinesGo [] s.toList).map fun cs => String.mk cs

/-- Python's `sep.join(parts)`. -/
def joinWith (sep : String) : List String → String
  | [] => ""
  | [x] => x
  | x :: xs => x ++ sep ++ joinWith sep xs

/-- The inner `clean` helper of `send_urban_dictionary_definition`
(lines 74-78): normalize the literal backslash-escaped CRLF sequences,
replace each bracket by a double underscore, split into lines, keep only
lines with a non-whitespace character, and re-join with newlines. -/
def clean (text : String) : String :=
  let processed :=
    replaceChar ']' ['_', '_'] (replaceChar '[' ['_', '_'] (normalizeCrlf text.toList))
  joinWith "\n"
    ((splitlines (String.mk processed)).filter fun l =>
      l.toList.any fun c => !c.isWhitespace)

/-- Scanner state machine for `linked_terms_pattern.findall` with pattern
`\[([^]]*)\]`: outside a bracket (state `none`) an opening bracket starts a
capture; inside a bracket (state `some acc`) every character other than a
closing bracket is collected, and a closing bracket emits the capture.  An
opening bracket with no later closing bracket yields no match. -/
def findallGo : Option (List Char) → List Char → List (List Char)
  | none, [] => []
  | some _, [] => []
  | none, c :: rest =>
    if c = '[' then findallGo (some []) rest else findallGo none rest
  | some acc, c :: rest =>
    if c = ']' then acc.reverse :: findallGo none rest
    else findallGo (some (c :: acc)) rest

/-- `linked_terms_pattern.findall(text)` (line 21 of the source): all
bracket-delimited captures, left to right, brackets excluded. -/
def linkedTermsFindall (text : String) : List String :=
  (findallGo none text.toList).map fun cs => String.mk cs

/-- The dedup loop of lines 93-100: lower-case each raw term, skip it when
already in the seen set, otherwise emit it and add it to the seen set. -/
def dedupLoop : List String → List String → List String
  | [], _ => []
  | t :: ts, seen =>
    if lowerString t ∈ seen then dedupLoop ts seen
    else lowerString t :: dedupLoop ts (lowerString t :: seen)

/-- The Term Extractor of the specification: scan for bracket-delimited
substrings, lower-case each, and emit each at most once, skipping any term
already in `alreadySeen`; first-seen order is preserved. -/
def extract (text : String) (alreadySeen : List String) : List String :=
  dedupLoop (linkedTermsFindall text) alreadySeen

/-- The seen set after the dedup loop has processed a list of raw terms. -/
def seenAfter : List String → List String → List String
  | [], seen => seen
  | t :: ts, seen =>
    if lowerString t ∈ seen then seenAfter ts seen
    else seenAfter ts (lowerString t :: seen)

/-- The `UrbanDefinition` dataclass (lines 33-39).  The source field named
`example` is rendered here as `exampleText` because `example` is a Lean
keyword. -/
structure UrbanDefinition where
  word : String
  definition : String
  exampleText : String
  permalink : String
deriving DecidableEq, Repr

/-- One parsed candidate of the external response's `list` array, holding
the four fields the source reads (line 52-56). -/
structure RawCandidate where
  word : String
  definition : String
  exampleText : String
  permalink : String
deriving DecidableEq, Repr

/-- `fetch_urban_dictionary_definition` (lines 42-56), with the network
abstracted away: `data` is the raw response body and `parsedList` the
`list` array of the parsed JSON object.  An empty body returns `none`
(NotFound); a non-empty body with an empty `list` raises (the uncaught
`IndexError` of `['list'][0]`), modelled as `Except.error`; otherwise the
first candidate's fields are copied verbatim. -/
def fetchUrbanDictionaryDefinition (data : String) (parsedList : List RawCandidate) :
    Except String (Option UrbanDefinition) :=
  if data.length = 0 then Except.ok none
  else
    match parsedList with
    | [] => Except.error "IndexError: list index out of range"
    | first :: _ =>
      Except.ok (some { word := first.word, definition := first.definition,
                        exampleText := first.exampleText, permalink := first.permalink })

/-- The `UbanDictionaryButton` element (lines 105-114): its label, its bound
target term, and the breadcrumb trail captured at construction time. -/
structure UbanDictionaryButton where
  label : String
  term : String
  previous_terms : List String
deriving DecidableEq, Repr

/-- The reply built by one render step: the embed description text and the
ordered list of follow-up buttons. -/
structure NavigationReply where
  description : String
  buttons : List UbanDictionaryButton
deriving DecidableEq, Repr

/-- The rendering part of `send_urban_dictionary_definition` (lines 70-102):
extend the trail with the fetched word, build the description (title line,
cleaned definition lines as headers, a literal newline element, cleaned
example lines emphasized, the website link), and one button per deduplicated
lower-cased cross-reference found in the definition and the example. -/
def render (d : UrbanDefinition) (previous_terms : List String) : NavigationReply :=
  let terms_to_get_here := previous_terms ++ [d.word]
  let title := "# " ++ joinWith " > " terms_to_get_here
  let defLines := (splitlines (clean d.definition)).map fun l => "### " ++ l
  let exLines := (splitlines (clean d.exampleText)).map fun l => "*" ++ l ++ "*"
  let website := "[website](" ++ d.permalink ++ ")"
  let descriptionParts := [title] ++ defLines ++ ["\n"] ++ exLines ++ [website]
  let other_terms := linkedTermsFindall d.definition ++ linkedTermsFindall d.exampleText
  { description := joinWith "\n" descriptionParts
    buttons := (dedupLoop other_terms []).map fun t =>
      { label := t, term := t, previous_terms := terms_to_get_here } }

/-- Outcome of one flow step of `send_urban_dictionary_definition`: either
the terminal not-found message (lines 66-68) or a rendered reply. -/
inductive FlowResult where
  | notFound (message : String)
  | rendered (reply : NavigationReply)
deriving DecidableEq, Repr

/-- The follow-up buttons exposed by a flow outcome; the not-found terminal
exposes none. -/
def flowButtons : FlowResult → List UbanDictionaryButton
  | FlowResult.notFound _ => []
  | FlowResult.rendered r => r.buttons

/-- `send_urban_dictionary_definition` (lines 59-102) with the fetcher
passed as a function from term to fetch outcome: a `none` fetch yields the
fixed failure message, otherwise the definition is rendered against the
incoming trail. -/
def sendUrbanDictionaryDefinition (fetch : String → Option UrbanDefinition)
    (term : String) (previous_terms : List String) : FlowResult :=
  match fetch term with
  | none => FlowResult.notFound "Failed to get a definition"
  | some d => FlowResult.rendered (render d previous_terms)

/-- `UbanDictionaryButton.callback` (lines 112-114): re-enter the flow with
the button's bound term and captured trail. -/
def buttonCallback (fetch : String → Option UrbanDefinition)
    (b : UbanDictionaryButton) : FlowResult :=
  sendUrbanDictionaryDefinition fetch b.term b.previous_terms

/-- Membership in the dedup loop's output: exactly the lower-cased raw terms
not already in the seen set. -/
theorem mem_dedupLoop (x : String) (l : List String) : ∀ (seen : List String),
    x ∈ dedupLoop l seen ↔ (x ∈ l.map lowerString ∧ x ∉ seen) := by
  induction l with
  | nil => intro seen; simp [dedupLoop]
  | cons t ts ih =>
    intro seen
    by_cases h : lowerString t ∈ seen
    · rw [dedupLoop, if_pos h, ih seen]
      simp only [List.map_cons, List.mem_cons]
      constructor
      · rintro ⟨hm, hs⟩; exact ⟨Or.inr hm, hs⟩
      · rintro ⟨hm | hm, hs⟩
        · exact absurd (hm ▸ h) hs
        · exact ⟨hm, hs⟩
    · rw [dedupLoop, if_neg h]
      simp only [List.mem_cons, ih (lowerString t :: seen), List.map_cons]
      constructor
      · rintro (rfl | ⟨hm, hs⟩)
        · exact ⟨Or.inl rfl, h⟩
        · push_neg at hs
          exact ⟨Or.inr hm, hs.2⟩
      · rintro ⟨hm | hm, hs⟩
        · exact Or.inl hm
        · by_cases hx : x = lowerString t
          · exact Or.inl hx
          · refine Or.inr ⟨hm, ?_⟩
            push_neg
            exact ⟨hx, hs⟩

/-- The dedup loop never emits the same term twice. -/
theorem dedupLoop_nodup (l : List String) : ∀ (seen : List String),
    (dedupLoop l seen).Nodup := by
  induction l with
  | nil => intro seen; simp [dedupLoop]
  | cons t ts ih =>
    intro seen
    by_cases h : lowerString t ∈ seen
    · rw [dedupLoop, if_pos h]; exact ih seen
    · rw [dedupLoop, if_neg h]
      refine List.nodup_cons.mpr ⟨?_, ih _⟩
      intro hmem
      exact ((mem_dedupLoop _ ts _).mp hmem).2 (List.mem_cons_self _ _)

/-- The dedup loop's output is a sublist of the lower-cased raw term list,
so the scan order of first occurrences is preserved. -/
theorem dedupLoop_sublist (l : List String) : ∀ (seen : List String),
    List.Sublist (dedupLoop l seen) (l.map lowerString) := by
  induction l with
  | nil => intro seen; simp [dedupLoop]
  | cons t ts ih =>
    intro seen
    by_cases h : lowerString t ∈ seen
    · rw [dedupLoop, if_pos h, List.map_cons]
      exact (ih seen).trans (List.sublist_cons_self _ _)
    · rw [dedupLoop, if_neg h, List.map_cons]
      exact List.Sublist.cons₂ _ (ih _)

/-- Splitting the dedup loop over an append: the second half runs with the
seen set accumulated by the first half. -/
theorem dedupLoop_append (A : List String) : ∀ (B seen : List String),
    dedupLoop (A ++ B) seen = dedupLoop A seen ++ dedupLoop B (seenAfter A seen) := by
  induction A with
  | nil => intro B seen; simp [dedupLoop, seenAfter]
  | cons t ts ih =>
    intro B seen
    by_cases h : lowerString t ∈ seen
    · rw [List.cons_append, dedupLoop, if_pos h, ih, dedupLoop, if_pos h,
        seenAfter, if_pos h]
    · rw [List.cons_append, dedupLoop, if_neg h, ih, dedupLoop, if_neg h,
        seenAfter, if_neg h, List.cons_append]

/-- Membership in the accumulated seen set: the initial seen set plus every
lower-cased processed term. -/
theorem mem_seenAfter (A : List String) : ∀ (seen : List String) (x : String),
    x ∈ seenAfter A seen ↔ x ∈ seen ∨ x ∈ A.map lowerString := by
  induction A with
  | nil => intro seen x; simp [seenAfter]
  | cons t ts ih =>
    intro seen x
    by_cases h : lowerString t ∈ seen
    · rw [seenAfter, if_pos h, ih]
      simp only [List.map_cons, List.mem_cons]
      constructor
      · rintro (hs | hm)
        · exact Or.inl hs
        · exact Or.inr (Or.inr hm)
      · rintro (hs | rfl | hm)
        · exact Or.inl hs
        · exact Or.inl h
        · exact Or.inr hm
    · rw [seenAfter, if_neg h, ih]
      simp only [List.mem_cons, List.map_cons]
      tauto

/-- The dedup loop depends on the seen set only through membership. -/
theorem dedupLoop_congr_seen (l : List String) : ∀ (s₁ s₂ : List String),
    (∀ x, x ∈ s₁ ↔ x ∈ s₂) → dedupLoop l s₁ = dedupLoop l s₂ := by
  induction l with
  | nil => intro s₁ s₂ _; simp [dedupLoop]
  | cons t ts ih =>
    intro s₁ s₂ hiff
    by_cases h : lowerString t ∈ s₁
    · rw [dedupLoop, if_pos h, dedupLoop, if_pos ((hiff _).mp h)]
      exact ih _ _ hiff
    · rw [dedupLoop, if_neg h, dedupLoop, if_neg (fun hh => h ((hiff _).mpr hh))]
      refine congrArg _ (ih _ _ fun x => ?_)
      simp only [List.mem_cons, hiff x]

/-- The button list produced by a render step, unfolded. -/
theorem render_buttons (d : UrbanDefinition) (trail : List String) :
    (render d trail).buttons =
      (dedupLoop (linkedTermsFindall d.definition ++ linkedTermsFindall d.exampleText) []).map
        fun t => { label := t, term := t, previous_terms := trail ++ [d.word] } := rfl

/-- The button labels produced by a render step are exactly the dedup loop's
output over both fields' raw matches. -/
theorem render_labels (d : UrbanDefinition) (trail : List String) :
    (render d trail).buttons.map UbanDictionaryButton.label =
      dedupLoop (linkedTermsFindall d.definition ++ linkedTermsFindall d.exampleText) [] := by
  rw [render_buttons, List.map_map]
  exact List.map_id _

/-- Claim C1: for every input text and every exclusion set, term extraction
never returns a term present in the exclusion set, never returns the same
term twice, and returns terms in first-seen order (its output is an
order-preserving sublist of the lower-cased scan matches); in particular
extracting from "see [foo] and [FOO] and [bar]" with an empty exclusion set
yields exactly ["foo", "bar"]. -/
theorem extract_excludes_nodup_order (T : String) (S : List String) :
    (∀ x ∈ extract T S, x ∉ S) ∧ (extract T S).Nodup ∧
      List.Sublist (extract T S) ((linkedTermsFindall T).map lowerString) ∧
      extract "see [foo] and [FOO] and [bar]" [] = ["foo", "bar"] := by
  refine ⟨?_, dedupLoop_nodup _ _, dedupLoop_sublist _ _, by decide⟩
  intro x hx
  exact ((mem_dedupLoop x _ S).mp hx).2

/-- Witness for C1 at the example text with exclusion set ["baz"]. -/
theorem extract_excludes_nodup_order_witness :
    ("foo" : String) ∉ (["baz"] : List String) ∧
      (extract "see [foo] and [FOO] and [bar]" ["baz"]).Nodup :=
  ⟨(extract_excludes_nodup_order "see [foo] and [FOO] and [bar]" ["baz"]).1 "foo" (by decide),
   (extract_excludes_nodup_order "see [foo] and [FOO] and [bar]" ["baz"]).2.1⟩

/-- Claim C2 counterexample: a cross-reference equal (after lower-casing) to
the current term is NOT dropped — rendering the definition of "foo" whose
body references [foo] still produces a follow-up button for "foo". -/
theorem render_keeps_current_term_ref :
    (render { word := "foo", definition := "see [foo]", exampleText := "",
              permalink := "x" } []).buttons
      = [{ label := "foo", term := "foo", previous_terms := ["foo"] }] := by decide

/-- Claim C2 (amended): extracted cross-references are deduplicated (after
lower-casing) only against terms already emitted in the same render call;
a term equal to the current headword or present in the breadcrumb trail is
not dropped, so every lower-cased raw match appears among the button
labels, and no label appears twice. -/
theorem render_dedup_within_call_only (d : UrbanDefinition) (trail : List String) :
    ((render d trail).buttons.map UbanDictionaryButton.label).Nodup ∧
      ∀ raw ∈ linkedTermsFindall d.definition ++ linkedTermsFindall d.exampleText,
        lowerString raw ∈ (render d trail).buttons.map UbanDictionaryButton.label := by
  rw [render_labels]
  refine ⟨dedupLoop_nodup _ _, ?_⟩
  intro raw hraw
  exact (mem_dedupLoop _ _ _).mpr ⟨List.mem_map_of_mem _ hraw, by simp⟩

/-- Witness for the amended C2: the lower-cased match of "FOO" shows up as a
button label of the concrete render. -/
theorem render_dedup_within_call_only_witness :
    lowerString "FOO" ∈
      ((render { word := "w", definition := "see [FOO]", exampleText := "",
                 permalink := "p" } []).buttons.map UbanDictionaryButton.label) :=
  (render_dedup_within_call_only
      { word := "w", definition := "see [FOO]", exampleText := "", permalink := "p" } []).2
    "FOO" (by decide)

/-- Claim C3: every button produced by a render step carries a captured
trail equal to the incoming trail with the definition's headword appended,
hence exactly one element longer; the new trail is a fresh list built by
appending, never a mutation of the old one. -/
theorem render_trail_extends (d : UrbanDefinition) (trail : List String) :
    ∀ b ∈ (render d trail).buttons,
      b.previous_terms = trail ++ [d.word] ∧
        b.previous_terms.length = trail.length + 1 := by
  intro b hb
  rw [render_buttons] at hb
  rcases List.mem_map.mp hb with ⟨t, _, rfl⟩
  exact ⟨rfl, by simp⟩

/-- Witness for C3 at a concrete definition with one cross-reference. -/
theorem render_trail_extends_witness :
    ({ label := "bar", term := "bar", previous_terms := ["foo"] }
        : UbanDictionaryButton).previous_terms = ([] : List String) ++ ["foo"] ∧
      ({ label := "bar", term := "bar", previous_terms := ["foo"] }
        : UbanDictionaryButton).previous_terms.length = ([] : List String).length + 1 :=
  render_trail_extends
    { word := "foo", definition := "see [bar]", exampleText := "", permalink := "x" } []
    { label := "bar", term := "bar", previous_terms := ["foo"] } (by decide)

/-- Claim C4: the fetcher returns NotFound (`Except.ok none`) exactly when
the response body is empty, and for any non-empty body it copies the first
candidate of the `list` array field-by-field verbatim into the definition
record, ignoring everything else. -/
theorem fetch_notfound_iff_empty (data : String) (parsedList : List RawCandidate) :
    (fetchUrbanDictionaryDefinition data parsedList = Except.ok none ↔ data.length = 0) ∧
      (data.length ≠ 0 → ∀ first rest, parsedList = first :: rest →
        fetchUrbanDictionaryDefinition data parsedList =
          Except.ok (some { word := first.word, definition := first.definition,
                            exampleText := first.exampleText,
                            permalink := first.permalink })) := by
  constructor
  · constructor
    · intro h
      by_contra hne
      rw [fetchUrbanDictionaryDefinition.eq_def, if_neg hne] at h
      cases parsedList with
      | nil => exact Except.noConfusion h
      | cons a l => simp at h
    · intro h
      rw [fetchUrbanDictionaryDefinition.eq_def, if_pos h]
  · intro h first rest hl
    subst hl
    rw [fetchUrbanDictionaryDefinition.eq_def, if_neg h]

/-- Witness for C4: a one-byte body with a one-candidate list maps fields
verbatim. -/
theorem fetch_notfound_iff_empty_witness :
    fetchUrbanDictionaryDefinition "x"
        [{ word := "w", definition := "d", exampleText := "e", permalink := "p" }] =
      Except.ok (some { word := "w", definition := "d", exampleText := "e",
                        permalink := "p" }) :=
  (fetch_notfound_iff_empty "x"
      [{ word := "w", definition := "d", exampleText := "e", permalink := "p" }]).2
    (by decide) { word := "w", definition := "d", exampleText := "e", permalink := "p" }
    [] rfl

/-- Claim C5: whenever the fetch step returns NotFound, the flow terminates
with the fixed failure message and exposes zero follow-up buttons, for
every term and every breadcrumb trail. -/
theorem flow_notfound_terminal (fetch : String → Option UrbanDefinition)
    (term : String) (trail : List String) (h : fetch term = none) :
    sendUrbanDictionaryDefinition fetch term trail =
        FlowResult.notFound "Failed to get a definition" ∧
      flowButtons (sendUrbanDictionaryDefinition fetch term trail) = [] := by
  rw [sendUrbanDictionaryDefinition, h]
  exact ⟨rfl, rfl⟩

/-- Witness for C5 with the fetcher that always returns nothing. -/
theorem flow_notfound_terminal_witness :
    sendUrbanDictionaryDefinition (fun _ => none) "x" [] =
        FlowResult.notFound "Failed to get a definition" ∧
      flowButtons (sendUrbanDictionaryDefinition (fun _ => none) "x" []) = [] :=
  flow_notfound_terminal (fun _ => none) "x" [] rfl

/-- The fetcher of the round-trip scenario of claim C6. -/
def roundTripFetch : String → Option UrbanDefinition := fun t =>
  if t = "foo" then
    some { word := "foo", definition := "see [bar]", exampleText := "",
           permalink := "http://x" }
  else if t = "bar" then
    some { word := "bar", definition := "", exampleText := "", permalink := "http://y" }
  else none

/-- Claim C6: the round-trip scenario — looking up "foo" with an empty trail
renders a reply whose description is titled "foo" with exactly one button
labeled "bar" capturing trail ["foo"]; triggering that button (which fetches
"bar") renders a reply titled "foo > bar" with zero buttons. -/
theorem round_trip_scenario :
    sendUrbanDictionaryDefinition roundTripFetch "foo" [] =
        FlowResult.rendered
          { description := "# foo\n### see __bar__\n\n\n[website](http://x)"
            buttons := [{ label := "bar", term := "bar", previous_terms := ["foo"] }] } ∧
      buttonCallback roundTripFetch
          { label := "bar", term := "bar", previous_terms := ["foo"] } =
        FlowResult.rendered
          { description := "# foo > bar\n\n\n[website](http://y)"
            buttons := [] } := by decide

/-- Claim C7 counterexample: with body "[a" and example "]" the render step
collects no cross-reference (each field is scanned separately and neither
contains a complete bracket pair), while the Term Extractor applied to the
body concatenated with the example finds the spanning match "a". -/
theorem render_refs_not_concat_extract :
    ((render { word := "w", definition := "[a", exampleText := "]",
               permalink := "p" } []).buttons.map UbanDictionaryButton.label) = [] ∧
      extract ("[a" ++ "]") [] = ["a"] := by decide

/-- Claim C7 (amended): the cross-references collected during rendering are
obtained by applying the Term Extractor to the body and to the example
separately — first the body with an empty alreadySeen set, then the example
with the body's results as the alreadySeen set. -/
theorem render_refs_fieldwise_extract (d : UrbanDefinition) (trail : List String) :
    (render d trail).buttons.map UbanDictionaryButton.label =
      extract d.definition [] ++ extract d.exampleText (extract d.definition []) := by
  rw [render_labels, dedupLoop_append]
  simp only [extract]
  refine congrArg _ (dedupLoop_congr_seen _ _ _ fun x => ?_)
  rw [mem_seenAfter, mem_dedupLoop]
  simp

/-- Claim C8 counterexample: a body capturing [Bar] next to another
reference [foo], with an example capturing [bar], renders TWO follow-up
buttons, not exactly one. -/
theorem render_casefold_two_refs :
    ("Bar" ∈ linkedTermsFindall "[Bar][foo]") ∧
      ("bar" ∈ linkedTermsFindall "[bar]") ∧
      ((render { word := "w", definition := "[Bar][foo]", exampleText := "[bar]",
                 permalink := "p" } []).buttons.map UbanDictionaryButton.label)
        = ["bar", "foo"] := by decide

/-- Claim C8 (amended): for a definition whose body scan captures "Bar" and
whose example scan captures "bar", rendering yields exactly one follow-up
button labeled "bar" (the two case variants fold to a single button),
regardless of the rest of the inputs. -/
theorem render_casefold_single_bar (d : UrbanDefinition) (trail : List String)
    (hb : "Bar" ∈ linkedTermsFindall d.definition)
    (_he : "bar" ∈ linkedTermsFindall d.exampleText) :
    ((render d trail).buttons.map UbanDictionaryButton.label).count "bar" = 1 := by
  rw [render_labels]
  refine List.count_eq_one_of_mem (dedupLoop_nodup _ _) ?_
  refine (mem_dedupLoop _ _ _).mpr ⟨?_, by simp⟩
  have h1 : lowerString "Bar" = "bar" := by decide
  rw [← h1]
  exact List.mem_map_of_mem _ (List.mem_append_left _ hb)

/-- Witness for the amended C8 at a concrete definition. -/
theorem render_casefold_single_bar_witness :
    ((render { word := "w", definition := "[Bar]", exampleText := "[bar]",
               permalink := "p" } []).buttons.map UbanDictionaryButton.label).count "bar"
      = 1 :=
  render_casefold_single_bar
    { word := "w", definition := "[Bar]", exampleText := "[bar]", permalink := "p" } []
    (by decide) (by decide)

/-- Claim C9: rendering is deterministic — two calls with equal definition
records and equal trails produce equal description strings and equal
ordered button lists (the render step is a pure function of its inputs,
with no hidden randomness). -/
theorem render_deterministic (d₁ d₂ : UrbanDefinition) (t₁ t₂ : List String)
    (hd : d₁ = d₂) (ht : t₁ = t₂) :
    (render d₁ t₁).description = (render d₂ t₂).description ∧
      (render d₁ t₁).buttons = (render d₂ t₂).buttons := by
  subst hd; subst ht; exact ⟨rfl, rfl⟩

/-- Witness for C9 at a concrete definition and trail. -/
theorem render_deterministic_witness :
    (render { word := "foo", definition := "see [bar]", exampleText := "",
              permalink := "x" } ["t"]).description =
        (render { word := "foo", definition := "see [bar]", exampleText := "",
                  permalink := "x" } ["t"]).description ∧
      (render { word := "foo", definition := "see [bar]", exampleText := "",
                permalink := "x" } ["t"]).buttons =
        (render { word := "foo", definition := "see [bar]", exampleText := "",
                  permalink := "x" } ["t"]).buttons :=
  render_deterministic _ _ _ _ rfl rfl

/-- Claim C10: an empty bracket pair is captured — the scanner applied to
"[]" emits the empty string, and whenever the empty string is among the
lower-cased captures of a definition's body or example, rendering produces
a follow-up button whose label and target term are both the empty string. -/
theorem empty_bracket_emits_empty_term :
    extract "[]" [] = [""] ∧
      ∀ (d : UrbanDefinition) (trail : List String),
        ("" : String) ∈
            (linkedTermsFindall d.definition ++ linkedTermsFindall d.exampleText).map
              lowerString →
          ∃ b ∈ (render d trail).buttons, b.label = "" ∧ b.term = "" := by
  refine ⟨by decide, ?_⟩
  intro d trail hmem
  have hdl : ("" : String) ∈
      dedupLoop (linkedTermsFindall d.definition ++ linkedTermsFindall d.exampleText) [] :=
    (mem_dedupLoop _ _ _).mpr ⟨hmem, by simp⟩
  rw [render_buttons]
  exact ⟨_, List.mem_map_of_mem _ hdl, rfl, rfl⟩

/-- Witness for C10 at a definition whose body contains "see []". -/
theorem empty_bracket_emits_empty_term_witness :
    ∃ b ∈ (render { word := "w", definition := "see []", exampleText := "",
                    permalink := "p" } []).buttons, b.label = "" ∧ b.term = "" :=
  empty_bracket_emits_empty_term.2
    { word := "w", definition := "see []", exampleText := "", permalink := "p" } []
    (by decide)

end Monty
